import Mathlib

/-!
Shallow embedding of the Chaos PBD joint-constraint math kernel
(`PBDJointConstraintUtilities.cpp`, namespace `Chaos`, class `FPBDJointUtilities`)
over exact real arithmetic, together with proofs of the specification claims.

Machine `FReal` scalars are modelled as `ℝ`; `FVec3` as a record of three reals;
`FRotation3` (a quaternion) as Mathlib's `Quaternion ℝ` with the UE component
correspondence `W = re`, `X = imI`, `Y = imJ`, `Z = imK` and the Hamilton product.
-/

namespace Chaos

/-- Engine constant `SMALL_NUMBER` (1.e-8f). -/
noncomputable def SMALL_NUMBER : ℝ := 1 / 10 ^ 8

/-- Engine constant `KINDA_SMALL_NUMBER` (1.e-4f). -/
noncomputable def KINDA_SMALL_NUMBER : ℝ := 1 / 10 ^ 4

/-- Three-component real vector, mirroring `FVec3`. -/
structure FVec3 where
  x : ℝ
  y : ℝ
  z : ℝ

namespace FVec3

instance : Zero FVec3 := ⟨⟨0, 0, 0⟩⟩

instance : Add FVec3 := ⟨fun a b => ⟨a.x + b.x, a.y + b.y, a.z + b.z⟩⟩

instance : Sub FVec3 := ⟨fun a b => ⟨a.x - b.x, a.y - b.y, a.z - b.z⟩⟩

instance : SMul ℝ FVec3 := ⟨fun c v => ⟨c * v.x, c * v.y, c * v.z⟩⟩

/-- Mirrors `FVec3::DotProduct`. -/
def dot (a b : FVec3) : ℝ := a.x * b.x + a.y * b.y + a.z * b.z

/-- Mirrors `FVec3::CrossProduct`. -/
def cross (a b : FVec3) : FVec3 :=
  ⟨a.y * b.z - a.z * b.y, a.z * b.x - a.x * b.z, a.x * b.y - a.y * b.x⟩

/-- Mirrors `FVec3::Size` (Euclidean length). -/
noncomputable def size (v : FVec3) : ℝ := Real.sqrt (dot v v)

/-- Mirrors `FVec3::Min` (smallest component). -/
def cmin (v : FVec3) : ℝ := min v.x (min v.y v.z)

/-- Mirrors `FVec3::Max` (largest component). -/
def cmax (v : FVec3) : ℝ := max v.x (max v.y v.z)

/-- Componentwise reciprocal, mirroring `FVec3(1/I.X, 1/I.Y, 1/I.Z)` as used in
`ConditionInverseMassAndInertia`. -/
noncomputable def recip (v : FVec3) : FVec3 := ⟨1 / v.x, 1 / v.y, 1 / v.z⟩

theorem zero_def : (0 : FVec3) = ⟨0, 0, 0⟩ := rfl

theorem add_def (a b : FVec3) : a + b = ⟨a.x + b.x, a.y + b.y, a.z + b.z⟩ := rfl

theorem sub_def (a b : FVec3) : a - b = ⟨a.x - b.x, a.y - b.y, a.z - b.z⟩ := rfl

theorem smul_def (c : ℝ) (v : FVec3) : c • v = ⟨c * v.x, c * v.y, c * v.z⟩ := rfl

end FVec3

/-- Mirrors `FMath::Lerp`: `A + Alpha * (B - A)`. -/
def lerp (a b t : ℝ) : ℝ := a + t * (b - a)

/-- Per-axis motion type `EJointMotionType`. -/
inductive EJointMotionType where
  | Free
  | Limited
  | Locked
deriving DecidableEq

/-- Global solver settings `FPBDJointSolverSettings`. Modelled from the spec:
the struct is declared in `PBDJointConstraintTypes.h`, which is not part of the
sources; the fields are those read by the resolver functions in the `.cpp`
(one global override per coefficient kind). Defaults are irrelevant to the
claims and set to `0`. -/
structure FPBDJointSolverSettings where
  Stiffness : ℝ := 0
  SoftLinearStiffness : ℝ := 0
  SoftLinearDamping : ℝ := 0
  SoftTwistStiffness : ℝ := 0
  SoftTwistDamping : ℝ := 0
  SoftSwingStiffness : ℝ := 0
  SoftSwingDamping : ℝ := 0
  LinearDriveStiffness : ℝ := 0
  LinearDriveDamping : ℝ := 0
  AngularDriveStiffness : ℝ := 0
  AngularDriveDamping : ℝ := 0
  LinearProjection : ℝ := 0
  AngularProjection : ℝ := 0

/-- Per-joint settings `FPBDJointSettings`. Modelled from the spec: the struct
is declared in `PBDJointConstraintTypes.h`, which is not part of the sources.
The fields are those read by the `.cpp`, plus the linear position/velocity
drive-enablement flags, which the spec's data model lists among the joint's
"drive-enablement flags" but which no function in the `.cpp` reads. -/
structure FPBDJointSettings where
  Stiffness : ℝ := 0
  SoftLinearStiffness : ℝ := 0
  SoftLinearDamping : ℝ := 0
  SoftTwistStiffness : ℝ := 0
  SoftTwistDamping : ℝ := 0
  SoftSwingStiffness : ℝ := 0
  SoftSwingDamping : ℝ := 0
  LinearDriveStiffness : ℝ := 0
  LinearDriveDamping : ℝ := 0
  AngularDriveStiffness : ℝ := 0
  AngularDriveDamping : ℝ := 0
  LinearProjection : ℝ := 0
  AngularProjection : ℝ := 0
  bLinearPositionDriveEnabled : Bool := false
  bLinearVelocityDriveEnabled : Bool := false
  bAngularTwistPositionDriveEnabled : Bool := false
  bAngularTwistVelocityDriveEnabled : Bool := false
  bAngularSwingPositionDriveEnabled : Bool := false
  bAngularSwingVelocityDriveEnabled : Bool := false
  bAngularSLerpPositionDriveEnabled : Bool := false
  bAngularSLerpVelocityDriveEnabled : Bool := false
  bSoftLinearLimitsEnabled : Bool := false
  LinearMotionTypes : Fin 3 → EJointMotionType := fun _ => EJointMotionType.Locked
  LinearLimit : ℝ := 0

namespace FPBDJointUtilities

open EJointMotionType

/-- `FPBDJointUtilities::GetLinearStiffness`. -/
noncomputable def GetLinearStiffness (SolverSettings : FPBDJointSolverSettings)
    (JointSettings : FPBDJointSettings) : ℝ :=
  if SolverSettings.Stiffness > 0 then SolverSettings.Stiffness else JointSettings.Stiffness

/-- `FPBDJointUtilities::GetSoftLinearStiffness`. -/
noncomputable def GetSoftLinearStiffness (SolverSettings : FPBDJointSolverSettings)
    (JointSettings : FPBDJointSettings) : ℝ :=
  if SolverSettings.SoftLinearStiffness > 0 then SolverSettings.SoftLinearStiffness
  else JointSettings.SoftLinearStiffness

/-- `FPBDJointUtilities::GetSoftLinearDamping`. -/
noncomputable def GetSoftLinearDamping (SolverSettings : FPBDJointSolverSettings)
    (JointSettings : FPBDJointSettings) : ℝ :=
  if SolverSettings.SoftLinearDamping > 0 then SolverSettings.SoftLinearDamping
  else JointSettings.SoftLinearDamping

/-- `FPBDJointUtilities::GetTwistStiffness`. -/
noncomputable def GetTwistStiffness (SolverSettings : FPBDJointSolverSettings)
    (JointSettings : FPBDJointSettings) : ℝ :=
  if SolverSettings.Stiffness > 0 then SolverSettings.Stiffness else JointSettings.Stiffness

/-- `FPBDJointUtilities::GetSoftTwistStiffness`. -/
noncomputable def GetSoftTwistStiffness (SolverSettings : FPBDJointSolverSettings)
    (JointSettings : FPBDJointSettings) : ℝ :=
  if SolverSettings.SoftTwistStiffness > 0 then SolverSettings.SoftTwistStiffness
  else JointSettings.SoftTwistStiffness

/-- `FPBDJointUtilities::GetSoftTwistDamping`. -/
noncomputable def GetSoftTwistDamping (SolverSettings : FPBDJointSolverSettings)
    (JointSettings : FPBDJointSettings) : ℝ :=
  if SolverSettings.SoftTwistDamping > 0 then SolverSettings.SoftTwistDamping
  else JointSettings.SoftTwistDamping

/-- `FPBDJointUtilities::GetSwingStiffness`. -/
noncomputable def GetSwingStiffness (SolverSettings : FPBDJointSolverSettings)
    (JointSettings : FPBDJointSettings) : ℝ :=
  if SolverSettings.Stiffness > 0 then SolverSettings.Stiffness else JointSettings.Stiffness

/-- `FPBDJointUtilities::GetSoftSwingStiffness`. -/
noncomputable def GetSoftSwingStiffness (SolverSettings : FPBDJointSolverSettings)
    (JointSettings : FPBDJointSettings) : ℝ :=
  if SolverSettings.SoftSwingStiffness > 0 then SolverSettings.SoftSwingStiffness
  else JointSettings.SoftSwingStiffness

/-- `FPBDJointUtilities::GetSoftSwingDamping`. -/
noncomputable def GetSoftSwingDamping (SolverSettings : FPBDJointSolverSettings)
    (JointSettings : FPBDJointSettings) : ℝ :=
  if SolverSettings.SoftSwingDamping > 0 then SolverSettings.SoftSwingDamping
  else JointSettings.SoftSwingDamping

/-- `FPBDJointUtilities::GetLinearDriveStiffness`. Note: no drive-enable flag is
consulted. -/
noncomputable def GetLinearDriveStiffness (SolverSettings : FPBDJointSolverSettings)
    (JointSettings : FPBDJointSettings) : ℝ :=
  if SolverSettings.LinearDriveStiffness > 0 then SolverSettings.LinearDriveStiffness
  else JointSettings.LinearDriveStiffness

/-- `FPBDJointUtilities::GetLinearDriveDamping`. Note: no drive-enable flag is
consulted. -/
noncomputable def GetLinearDriveDamping (SolverSettings : FPBDJointSolverSettings)
    (JointSettings : FPBDJointSettings) : ℝ :=
  if SolverSettings.LinearDriveDamping > 0 then SolverSettings.LinearDriveDamping
  else JointSettings.LinearDriveDamping

/-- `FPBDJointUtilities::GetAngularTwistDriveStiffness`. -/
noncomputable def GetAngularTwistDriveStiffness (SolverSettings : FPBDJointSolverSettings)
    (JointSettings : FPBDJointSettings) : ℝ :=
  if JointSettings.bAngularTwistPositionDriveEnabled then
    if SolverSettings.AngularDriveStiffness > 0 then SolverSettings.AngularDriveStiffness
    else JointSettings.AngularDriveStiffness
  else 0

/-- `FPBDJointUtilities::GetAngularTwistDriveDamping`. -/
noncomputable def GetAngularTwistDriveDamping (SolverSettings : FPBDJointSolverSettings)
    (JointSettings : FPBDJointSettings) : ℝ :=
  if JointSettings.bAngularTwistVelocityDriveEnabled then
    if SolverSettings.AngularDriveDamping > 0 then SolverSettings.AngularDriveDamping
    else JointSettings.AngularDriveDamping
  else 0

/-- `FPBDJointUtilities::GetAngularSwingDriveStiffness`. -/
noncomputable def GetAngularSwingDriveStiffness (SolverSettings : FPBDJointSolverSettings)
    (JointSettings : FPBDJointSettings) : ℝ :=
  if JointSettings.bAngularSwingPositionDriveEnabled then
    if SolverSettings.AngularDriveStiffness > 0 then SolverSettings.AngularDriveStiffness
    else JointSettings.AngularDriveStiffness
  else 0

/-- `FPBDJointUtilities::GetAngularSwingDriveDamping`. -/
noncomputable def GetAngularSwingDriveDamping (SolverSettings : FPBDJointSolverSettings)
    (JointSettings : FPBDJointSettings) : ℝ :=
  if JointSettings.bAngularSwingVelocityDriveEnabled then
    if SolverSettings.AngularDriveDamping > 0 then SolverSettings.AngularDriveDamping
    else JointSettings.AngularDriveDamping
  else 0

/-- `FPBDJointUtilities::GetAngularSLerpDriveStiffness`. -/
noncomputable def GetAngularSLerpDriveStiffness (SolverSettings : FPBDJointSolverSettings)
    (JointSettings : FPBDJointSettings) : ℝ :=
  if JointSettings.bAngularSLerpPositionDriveEnabled then
    if SolverSettings.AngularDriveStiffness > 0 then SolverSettings.AngularDriveStiffness
    else JointSettings.AngularDriveStiffness
  else 0

/-- `FPBDJointUtilities::GetAngularSLerpDriveDamping`. -/
noncomputable def GetAngularSLerpDriveDamping (SolverSettings : FPBDJointSolverSettings)
    (JointSettings : FPBDJointSettings) : ℝ :=
  if JointSettings.bAngularSLerpVelocityDriveEnabled then
    if SolverSettings.AngularDriveDamping > 0 then SolverSettings.AngularDriveDamping
    else JointSettings.AngularDriveDamping
  else 0

/-- `FPBDJointUtilities::GetLinearProjection`. -/
noncomputable def GetLinearProjection (SolverSettings : FPBDJointSolverSettings)
    (JointSettings : FPBDJointSettings) : ℝ :=
  if SolverSettings.LinearProjection > 0 then SolverSettings.LinearProjection
  else JointSettings.LinearProjection

/-- `FPBDJointUtilities::GetAngularProjection`. -/
noncomputable def GetAngularProjection (SolverSettings : FPBDJointSolverSettings)
    (JointSettings : FPBDJointSettings) : ℝ :=
  if SolverSettings.AngularProjection > 0 then SolverSettings.AngularProjection
  else JointSettings.AngularProjection

end FPBDJointUtilities

open FPBDJointUtilities

/-- Joint settings whose linear-drive enable flags are off while the joint's
linear drive coefficients are nonzero. -/
def jsLinearDriveDisabled : FPBDJointSettings :=
  { LinearDriveStiffness := 5, LinearDriveDamping := 5,
    bLinearPositionDriveEnabled := false, bLinearVelocityDriveEnabled := false }

/-- C1: counterexample. The claim asserts that every drive stiffness/damping
getter returns `0` when the corresponding enable flag is false, but
`GetLinearDriveStiffness` never consults an enable flag: with the joint's
linear position-drive flag false and a joint coefficient of `5` (solver
coefficient `0`), it returns `5`, not `0`. -/
theorem getLinearDriveStiffness_ignores_enable_flag :
    jsLinearDriveDisabled.bLinearPositionDriveEnabled = false ∧
      GetLinearDriveStiffness {} jsLinearDriveDisabled ≠ 0 :=
  ⟨rfl, by norm_num [GetLinearDriveStiffness, jsLinearDriveDisabled]⟩

/-- C1 (amended): the six angular drive getters (twist/swing/slerp stiffness
and damping) return `0` whenever the joint's corresponding position- or
velocity-drive enable flag is false, for every solver/joint settings pair;
the two linear drive getters are not gated by any enable flag. -/
theorem angularDriveGetters_zero_when_disabled
    (ss : FPBDJointSolverSettings) (js : FPBDJointSettings) :
    (js.bAngularTwistPositionDriveEnabled = false → GetAngularTwistDriveStiffness ss js = 0) ∧
    (js.bAngularTwistVelocityDriveEnabled = false → GetAngularTwistDriveDamping ss js = 0) ∧
    (js.bAngularSwingPositionDriveEnabled = false → GetAngularSwingDriveStiffness ss js = 0) ∧
    (js.bAngularSwingVelocityDriveEnabled = false → GetAngularSwingDriveDamping ss js = 0) ∧
    (js.bAngularSLerpPositionDriveEnabled = false → GetAngularSLerpDriveStiffness ss js = 0) ∧
    (js.bAngularSLerpVelocityDriveEnabled = false → GetAngularSLerpDriveDamping ss js = 0) :=
  ⟨fun h => by simp [GetAngularTwistDriveStiffness, h],
   fun h => by simp [GetAngularTwistDriveDamping, h],
   fun h => by simp [GetAngularSwingDriveStiffness, h],
   fun h => by simp [GetAngularSwingDriveDamping, h],
   fun h => by simp [GetAngularSLerpDriveStiffness, h],
   fun h => by simp [GetAngularSLerpDriveDamping, h]⟩

/-- C1 witness: the amended theorem evaluated on settings with every drive flag
false and nonzero coefficients on both tiers. -/
theorem angularDriveGetters_zero_when_disabled_witness :
    GetAngularTwistDriveStiffness { AngularDriveStiffness := 3 } { AngularDriveStiffness := 7 } = 0 ∧
    GetAngularTwistDriveDamping { AngularDriveDamping := 3 } { AngularDriveDamping := 7 } = 0 ∧
    GetAngularSwingDriveStiffness { AngularDriveStiffness := 3 } { AngularDriveStiffness := 7 } = 0 ∧
    GetAngularSwingDriveDamping { AngularDriveDamping := 3 } { AngularDriveDamping := 7 } = 0 ∧
    GetAngularSLerpDriveStiffness { AngularDriveStiffness := 3 } { AngularDriveStiffness := 7 } = 0 ∧
    GetAngularSLerpDriveDamping { AngularDriveDamping := 3 } { AngularDriveDamping := 7 } = 0 :=
  ⟨(angularDriveGetters_zero_when_disabled _ _).1 rfl,
   (angularDriveGetters_zero_when_disabled _ _).2.1 rfl,
   (angularDriveGetters_zero_when_disabled _ _).2.2.1 rfl,
   (angularDriveGetters_zero_when_disabled _ _).2.2.2.1 rfl,
   (angularDriveGetters_zero_when_disabled _ _).2.2.2.2.1 rfl,
   (angularDriveGetters_zero_when_disabled _ _).2.2.2.2.2 rfl⟩

/-- C4: every Settings Resolver coefficient getter with a global counterpart
follows override-if-positive: a strictly positive solver value is returned,
otherwise (solver value ≤ 0) the joint value is returned. The drive getters
with enable flags are gated on the flag being true. -/
theorem settingsResolver_override_if_positive
    (ss : FPBDJointSolverSettings) (js : FPBDJointSettings) :
    ((0 < ss.Stiffness → GetLinearStiffness ss js = ss.Stiffness) ∧
      (ss.Stiffness ≤ 0 → GetLinearStiffness ss js = js.Stiffness)) ∧
    ((0 < ss.SoftLinearStiffness → GetSoftLinearStiffness ss js = ss.SoftLinearStiffness) ∧
      (ss.SoftLinearStiffness ≤ 0 → GetSoftLinearStiffness ss js = js.SoftLinearStiffness)) ∧
    ((0 < ss.SoftLinearDamping → GetSoftLinearDamping ss js = ss.SoftLinearDamping) ∧
      (ss.SoftLinearDamping ≤ 0 → GetSoftLinearDamping ss js = js.SoftLinearDamping)) ∧
    ((0 < ss.Stiffness → GetTwistStiffness ss js = ss.Stiffness) ∧
      (ss.Stiffness ≤ 0 → GetTwistStiffness ss js = js.Stiffness)) ∧
    ((0 < ss.SoftTwistStiffness → GetSoftTwistStiffness ss js = ss.SoftTwistStiffness) ∧
      (ss.SoftTwistStiffness ≤ 0 → GetSoftTwistStiffness ss js = js.SoftTwistStiffness)) ∧
    ((0 < ss.SoftTwistDamping → GetSoftTwistDamping ss js = ss.SoftTwistDamping) ∧
      (ss.SoftTwistDamping ≤ 0 → GetSoftTwistDamping ss js = js.SoftTwistDamping)) ∧
    ((0 < ss.Stiffness → GetSwingStiffness ss js = ss.Stiffness) ∧
      (ss.Stiffness ≤ 0 → GetSwingStiffness ss js = js.Stiffness)) ∧
    ((0 < ss.SoftSwingStiffness → GetSoftSwingStiffness ss js = ss.SoftSwingStiffness) ∧
      (ss.SoftSwingStiffness ≤ 0 → GetSoftSwingStiffness ss js = js.SoftSwingStiffness)) ∧
    ((0 < ss.SoftSwingDamping → GetSoftSwingDamping ss js = ss.SoftSwingDamping) ∧
      (ss.SoftSwingDamping ≤ 0 → GetSoftSwingDamping ss js = js.SoftSwingDamping)) ∧
    ((0 < ss.LinearDriveStiffness → GetLinearDriveStiffness ss js = ss.LinearDriveStiffness) ∧
      (ss.LinearDriveStiffness ≤ 0 → GetLinearDriveStiffness ss js = js.LinearDriveStiffness)) ∧
    ((0 < ss.LinearDriveDamping → GetLinearDriveDamping ss js = ss.LinearDriveDamping) ∧
      (ss.LinearDriveDamping ≤ 0 → GetLinearDriveDamping ss js = js.LinearDriveDamping)) ∧
    (js.bAngularTwistPositionDriveEnabled = true →
      (0 < ss.AngularDriveStiffness →
        GetAngularTwistDriveStiffness ss js = ss.AngularDriveStiffness) ∧
      (ss.AngularDriveStiffness ≤ 0 →
        GetAngularTwistDriveStiffness ss js = js.AngularDriveStiffness)) ∧
    (js.bAngularTwistVelocityDriveEnabled = true →
      (0 < ss.AngularDriveDamping →
        GetAngularTwistDriveDamping ss js = ss.AngularDriveDamping) ∧
      (ss.AngularDriveDamping ≤ 0 →
        GetAngularTwistDriveDamping ss js = js.AngularDriveDamping)) ∧
    (js.bAngularSwingPositionDriveEnabled = true →
      (0 < ss.AngularDriveStiffness →
        GetAngularSwingDriveStiffness ss js = ss.AngularDriveStiffness) ∧
      (ss.AngularDriveStiffness ≤ 0 →
        GetAngularSwingDriveStiffness ss js = js.AngularDriveStiffness)) ∧
    (js.bAngularSwingVelocityDriveEnabled = true →
      (0 < ss.AngularDriveDamping →
        GetAngularSwingDriveDamping ss js = ss.AngularDriveDamping) ∧
      (ss.AngularDriveDamping ≤ 0 →
        GetAngularSwingDriveDamping ss js = js.AngularDriveDamping)) ∧
    (js.bAngularSLerpPositionDriveEnabled = true →
      (0 < ss.AngularDriveStiffness →
        GetAngularSLerpDriveStiffness ss js = ss.AngularDriveStiffness) ∧
      (ss.AngularDriveStiffness ≤ 0 →
        GetAngularSLerpDriveStiffness ss js = js.AngularDriveStiffness)) ∧
    (js.bAngularSLerpVelocityDriveEnabled = true →
      (0 < ss.AngularDriveDamping →
        GetAngularSLerpDriveDamping ss js = ss.AngularDriveDamping) ∧
      (ss.AngularDriveDamping ≤ 0 →
        GetAngularSLerpDriveDamping ss js = js.AngularDriveDamping)) ∧
    ((0 < ss.LinearProjection → GetLinearProjection ss js = ss.LinearProjection) ∧
      (ss.LinearProjection ≤ 0 → GetLinearProjection ss js = js.LinearProjection)) ∧
    ((0 < ss.AngularProjection → GetAngularProjection ss js = ss.AngularProjection) ∧
      (ss.AngularProjection ≤ 0 → GetAngularProjection ss js = js.AngularProjection)) := by
  have hres : ∀ s j : ℝ,
      (0 < s → (if s > 0 then s else j) = s) ∧ (s ≤ 0 → (if s > 0 then s else j) = j) :=
    fun s j => ⟨fun h => if_pos h, fun h => if_neg (not_lt.2 h)⟩
  have hgate : ∀ (b : Bool) (s j : ℝ), b = true →
      (0 < s → (if b then (if s > 0 then s else j) else 0) = s) ∧
      (s ≤ 0 → (if b then (if s > 0 then s else j) else 0) = j) := by
    rintro b s j rfl
    simpa using hres s j
  exact ⟨hres _ _, hres _ _, hres _ _, hres _ _, hres _ _, hres _ _, hres _ _, hres _ _,
    hres _ _, hres _ _, hres _ _, hgate _ _ _, hgate _ _ _, hgate _ _ _, hgate _ _ _,
    hgate _ _ _, hgate _ _ _, hres _ _, hres _ _⟩

/-- Solver settings with every coefficient `5`. -/
def ssAllFive : FPBDJointSolverSettings :=
  { Stiffness := 5, SoftLinearStiffness := 5, SoftLinearDamping := 5, SoftTwistStiffness := 5,
    SoftTwistDamping := 5, SoftSwingStiffness := 5, SoftSwingDamping := 5,
    LinearDriveStiffness := 5, LinearDriveDamping := 5, AngularDriveStiffness := 5,
    AngularDriveDamping := 5, LinearProjection := 5, AngularProjection := 5 }

/-- Joint settings with every coefficient `2` and every drive flag enabled. -/
def jsAllTwo : FPBDJointSettings :=
  { Stiffness := 2, SoftLinearStiffness := 2, SoftLinearDamping := 2, SoftTwistStiffness := 2,
    SoftTwistDamping := 2, SoftSwingStiffness := 2, SoftSwingDamping := 2,
    LinearDriveStiffness := 2, LinearDriveDamping := 2, AngularDriveStiffness := 2,
    AngularDriveDamping := 2, LinearProjection := 2, AngularProjection := 2,
    bLinearPositionDriveEnabled := true, bLinearVelocityDriveEnabled := true,
    bAngularTwistPositionDriveEnabled := true, bAngularTwistVelocityDriveEnabled := true,
    bAngularSwingPositionDriveEnabled := true, bAngularSwingVelocityDriveEnabled := true,
    bAngularSLerpPositionDriveEnabled := true, bAngularSLerpVelocityDriveEnabled := true }

/-- C4 witness: solver value `5` beats joint value `2`; solver value `0` yields
joint value `2`, on representative getters. -/
theorem settingsResolver_override_if_positive_witness :
    GetLinearStiffness ssAllFive jsAllTwo = 5 ∧ GetLinearStiffness {} jsAllTwo = 2 ∧
    GetAngularTwistDriveStiffness ssAllFive jsAllTwo = 5 ∧
    GetAngularSLerpDriveDamping {} jsAllTwo = 2 ∧ GetAngularProjection {} jsAllTwo = 2 := by
  obtain ⟨h1, -, -, -, -, -, -, -, -, -, -, h12, -, -, -, -, h17, -, h19⟩ :=
    settingsResolver_override_if_positive ssAllFive jsAllTwo
  obtain ⟨g1, -, -, -, -, -, -, -, -, -, -, -, -, -, -, -, g17, -, g19⟩ :=
    settingsResolver_override_if_positive {} jsAllTwo
  refine ⟨h1.1 ?_, g1.2 ?_, (h12 ?_).1 ?_, (g17 ?_).2 ?_, g19.2 ?_⟩ <;>
    norm_num [ssAllFive, jsAllTwo]

namespace FPBDJointUtilities

/-- `FPBDJointUtilities::ConditionInertia`. -/
noncomputable def ConditionInertia (InI : FVec3) (MaxRatio : ℝ) : FVec3 :=
  let IMin := InI.cmin
  let IMax := InI.cmax
  if MaxRatio > 0 ∧ IMin > 0 then
    if IMax / IMin > MaxRatio then
      let MinIMin := IMax / MaxRatio
      ⟨lerp MinIMin IMax ((InI.x - IMin) / (IMax - IMin)),
       lerp MinIMin IMax ((InI.y - IMin) / (IMax - IMin)),
       lerp MinIMin IMax ((InI.z - IMin) / (IMax - IMin))⟩
    else InI
  else InI

/-- `FPBDJointUtilities::ConditionParentInertia`. -/
noncomputable def ConditionParentInertia (IParent IChild : FVec3) (MinRatio : ℝ) : FVec3 :=
  if MinRatio > 0 then
    if IParent.cmax > 0 ∧ IChild.cmax > 0 then
      if IParent.cmax / IChild.cmax < MinRatio then
        (MinRatio / (IParent.cmax / IChild.cmax)) • IParent
      else IParent
    else IParent
  else IParent

/-- `FPBDJointUtilities::ConditionParentMass`. -/
noncomputable def ConditionParentMass (MParent MChild MinRatio : ℝ) : ℝ :=
  if MinRatio > 0 ∧ MParent > 0 ∧ MChild > 0 then
    if MParent / MChild < MinRatio then MParent * (MinRatio / (MParent / MChild))
    else MParent
  else MParent

/-- Explicit-state result of `ConditionInverseMassAndInertia`, which mutates its
four in-out reference parameters. -/
structure ConditionedMassInertia where
  InvMParent : ℝ
  InvMChild : ℝ
  InvIParent : FVec3
  InvIChild : FVec3

/-- `FPBDJointUtilities::ConditionInverseMassAndInertia`, with the in-out
mutation made explicit: direct masses/inertias are formed for each dynamic body,
self-conditioned, cross-conditioned when both bodies are dynamic, and mapped
back to inverses; a body with non-positive inverse mass is left untouched. -/
noncomputable def ConditionInverseMassAndInertia
    (InvMParent InvMChild : ℝ) (InvIParent InvIChild : FVec3)
    (MinParentMassRatio MaxInertiaRatio : ℝ) : ConditionedMassInertia :=
  let MParent := if InvMParent > 0 then 1 / InvMParent else 0
  let IParent := if InvMParent > 0 then ConditionInertia InvIParent.recip MaxInertiaRatio else 0
  let MChild := if InvMChild > 0 then 1 / InvMChild else 0
  let IChild := if InvMChild > 0 then ConditionInertia InvIChild.recip MaxInertiaRatio else 0
  let MParent2 :=
    if InvMParent > 0 ∧ InvMChild > 0 then ConditionParentMass MParent MChild MinParentMassRatio
    else MParent
  let IParent2 :=
    if InvMParent > 0 ∧ InvMChild > 0 then ConditionParentInertia IParent IChild MinParentMassRatio
    else IParent
  { InvMParent := if InvMParent > 0 then 1 / MParent2 else InvMParent
    InvMChild := if InvMChild > 0 then 1 / MChild else InvMChild
    InvIParent := if InvMParent > 0 then IParent2.recip else InvIParent
    InvIChild := if InvMChild > 0 then IChild.recip else InvIChild }

end FPBDJointUtilities

namespace FVec3

theorem cmin_le_x (v : FVec3) : v.cmin ≤ v.x := min_le_left _ _

theorem cmin_le_y (v : FVec3) : v.cmin ≤ v.y :=
  le_trans (min_le_right _ _) (min_le_left _ _)

theorem cmin_le_z (v : FVec3) : v.cmin ≤ v.z :=
  le_trans (min_le_right _ _) (min_le_right _ _)

theorem x_le_cmax (v : FVec3) : v.x ≤ v.cmax := le_max_left _ _

theorem y_le_cmax (v : FVec3) : v.y ≤ v.cmax :=
  le_trans (le_max_left _ _) (le_max_right _ _)

theorem z_le_cmax (v : FVec3) : v.z ≤ v.cmax :=
  le_trans (le_max_right _ _) (le_max_right _ _)

theorem cmin_le_cmax (v : FVec3) : v.cmin ≤ v.cmax :=
  le_trans (cmin_le_x v) (x_le_cmax v)

theorem cmax_smul (c : ℝ) (v : FVec3) (hc : 0 ≤ c) : (c • v).cmax = c * v.cmax := by
  have hmono : Monotone fun t : ℝ => c * t := fun a b hab => mul_le_mul_of_nonneg_left hab hc
  show max (c * v.x) (max (c * v.y) (c * v.z)) = c * max v.x (max v.y v.z)
  rw [← hmono.map_max, ← hmono.map_max]

theorem cmin_smul (c : ℝ) (v : FVec3) (hc : 0 ≤ c) : (c • v).cmin = c * v.cmin := by
  have hmono : Monotone fun t : ℝ => c * t := fun a b hab => mul_le_mul_of_nonneg_left hab hc
  show min (c * v.x) (min (c * v.y) (c * v.z)) = c * min v.x (min v.y v.z)
  rw [← hmono.map_min, ← hmono.map_min]

end FVec3

namespace FPBDJointUtilities

/-- Monotonicity of the affine remap used by `ConditionInertia`. -/
theorem remap_mono {a b m M : ℝ} (hab : a ≤ b) (hmM : 0 < M - m) :
    Monotone fun t => lerp a b ((t - m) / (M - m)) := by
  intro s t hst
  have h1 : (s - m) / (M - m) ≤ (t - m) / (M - m) :=
    (div_le_div_iff_of_pos_right hmM).2 (by linarith)
  have h2 := mul_le_mul_of_nonneg_right h1 (sub_nonneg.2 hab)
  simp only [lerp]
  linarith

/-- `ConditionInertia` on a triggered input (positive minimum, ratio above a
`MaxRatio ≥ 1`): exact output ratio, unchanged maximum, order preservation, and
component bounds. -/
theorem conditionInertia_trigger (I : FVec3) (r : ℝ) (h1 : 1 ≤ r) (hm : 0 < I.cmin)
    (hratio : I.cmax / I.cmin > r) :
    (ConditionInertia I r).cmin = I.cmax / r ∧
    (ConditionInertia I r).cmax = I.cmax ∧
    (ConditionInertia I r).cmax / (ConditionInertia I r).cmin = r ∧
    ((I.x ≤ I.y → (ConditionInertia I r).x ≤ (ConditionInertia I r).y) ∧
      (I.y ≤ I.z → (ConditionInertia I r).y ≤ (ConditionInertia I r).z) ∧
      (I.x ≤ I.z → (ConditionInertia I r).x ≤ (ConditionInertia I r).z)) ∧
    ((ConditionInertia I r).x ∈ Set.Icc (I.cmax / r) I.cmax ∧
      (ConditionInertia I r).y ∈ Set.Icc (I.cmax / r) I.cmax ∧
      (ConditionInertia I r).z ∈ Set.Icc (I.cmax / r) I.cmax) := by
  have h0 : (0 : ℝ) < r := lt_of_lt_of_le one_pos h1
  have hM : 0 < I.cmax := lt_of_lt_of_le hm (FVec3.cmin_le_cmax I)
  have hrm : r * I.cmin < I.cmax := (lt_div_iff₀ hm).1 hratio
  have hmM : I.cmin < I.cmax := by nlinarith
  have hsub : 0 < I.cmax - I.cmin := sub_pos.2 hmM
  have hab : I.cmax / r ≤ I.cmax := div_le_self hM.le h1
  have hmono := remap_mono hab hsub
  have heq : ConditionInertia I r =
      ⟨lerp (I.cmax / r) I.cmax ((I.x - I.cmin) / (I.cmax - I.cmin)),
       lerp (I.cmax / r) I.cmax ((I.y - I.cmin) / (I.cmax - I.cmin)),
       lerp (I.cmax / r) I.cmax ((I.z - I.cmin) / (I.cmax - I.cmin))⟩ := by
    simp only [ConditionInertia]
    rw [if_pos ⟨h0, hm⟩, if_pos hratio]
  have hfm : lerp (I.cmax / r) I.cmax ((I.cmin - I.cmin) / (I.cmax - I.cmin)) = I.cmax / r := by
    simp [lerp]
  have hfM : lerp (I.cmax / r) I.cmax ((I.cmax - I.cmin) / (I.cmax - I.cmin)) = I.cmax := by
    rw [div_self hsub.ne', lerp]; ring
  have hcmax : (ConditionInertia I r).cmax = I.cmax := by
    rw [heq]
    show max _ (max _ _) = I.cmax
    rw [← hmono.map_max, ← hmono.map_max]
    exact hfM
  have hcmin : (ConditionInertia I r).cmin = I.cmax / r := by
    rw [heq]
    show min _ (min _ _) = I.cmax / r
    rw [← hmono.map_min, ← hmono.map_min]
    exact hfm
  refine ⟨hcmin, hcmax, ?_, ⟨fun h => ?_, fun h => ?_, fun h => ?_⟩, ?_, ?_, ?_⟩
  · rw [hcmax, hcmin]
    field_simp
  · rw [heq]; exact hmono h
  · rw [heq]; exact hmono h
  · rw [heq]; exact hmono h
  · rw [heq]
    exact ⟨le_trans hfm.symm.le (hmono (FVec3.cmin_le_x I)),
      le_trans (hmono (FVec3.x_le_cmax I)) hfM.le⟩
  · rw [heq]
    exact ⟨le_trans hfm.symm.le (hmono (FVec3.cmin_le_y I)),
      le_trans (hmono (FVec3.y_le_cmax I)) hfM.le⟩
  · rw [heq]
    exact ⟨le_trans hfm.symm.le (hmono (FVec3.cmin_le_z I)),
      le_trans (hmono (FVec3.z_le_cmax I)) hfM.le⟩

/-- `ConditionInertia` returns its input unchanged when the trigger condition
fails. -/
theorem conditionInertia_of_not_trigger (I : FVec3) (r : ℝ)
    (h : ¬(0 < r ∧ 0 < I.cmin ∧ I.cmax / I.cmin > r)) : ConditionInertia I r = I := by
  simp only [ConditionInertia]
  split_ifs with h1 h2
  · exact absurd ⟨h1.1, h1.2, h2⟩ h
  · rfl
  · rfl

/-- C7 (amended): if `1 ≤ maxRatio`, `min(I) > 0` and `max(I)/min(I) > maxRatio`,
then `ConditionInertia` produces a vector whose max/min ratio is exactly
`maxRatio`, whose maximum equals the input maximum, whose components keep their
relative order, and whose components all lie in `[max/maxRatio, max]`;
in every other case (relative to the code's trigger `maxRatio > 0`,
`min(I) > 0`, `max/min > maxRatio`) the input is returned unchanged.
The original claim, which asserted the remap properties for every
`maxRatio > 0`, fails for `0 < maxRatio < 1` (see the counterexample). -/
theorem conditionInertia_spec (I : FVec3) (MaxRatio : ℝ) :
    (1 ≤ MaxRatio → 0 < I.cmin → I.cmax / I.cmin > MaxRatio →
      (ConditionInertia I MaxRatio).cmax / (ConditionInertia I MaxRatio).cmin = MaxRatio ∧
      (ConditionInertia I MaxRatio).cmax = I.cmax ∧
      ((I.x ≤ I.y → (ConditionInertia I MaxRatio).x ≤ (ConditionInertia I MaxRatio).y) ∧
        (I.y ≤ I.z → (ConditionInertia I MaxRatio).y ≤ (ConditionInertia I MaxRatio).z) ∧
        (I.x ≤ I.z → (ConditionInertia I MaxRatio).x ≤ (ConditionInertia I MaxRatio).z)) ∧
      ((ConditionInertia I MaxRatio).x ∈ Set.Icc (I.cmax / MaxRatio) I.cmax ∧
        (ConditionInertia I MaxRatio).y ∈ Set.Icc (I.cmax / MaxRatio) I.cmax ∧
        (ConditionInertia I MaxRatio).z ∈ Set.Icc (I.cmax / MaxRatio) I.cmax)) ∧
    (¬(0 < MaxRatio ∧ 0 < I.cmin ∧ I.cmax / I.cmin > MaxRatio) →
      ConditionInertia I MaxRatio = I) := by
  constructor
  · intro h1 hm hratio
    obtain ⟨-, hmax, hr, hord, hicc⟩ := conditionInertia_trigger I MaxRatio h1 hm hratio
    exact ⟨hr, hmax, hord, hicc⟩
  · exact conditionInertia_of_not_trigger I MaxRatio

/-- C7 witness: the spec's own example `I = (1,1,100)`, `maxRatio = 10` yields
ratio exactly `10`, and a non-positive `maxRatio` leaves the input unchanged. -/
theorem conditionInertia_spec_witness :
    (ConditionInertia ⟨1, 1, 100⟩ 10).cmax / (ConditionInertia ⟨1, 1, 100⟩ 10).cmin = 10 ∧
    ConditionInertia ⟨1, 1, 100⟩ 0 = ⟨1, 1, 100⟩ := by
  constructor
  · exact ((conditionInertia_spec ⟨1, 1, 100⟩ 10).1 (by norm_num)
      (by norm_num [FVec3.cmin, min_def]) (by norm_num [FVec3.cmin, FVec3.cmax, min_def, max_def])).1
  · exact (conditionInertia_spec ⟨1, 1, 100⟩ 0).2 (by norm_num)

/-- C7 counterexample: for `I = (1,2,4)` and `maxRatio = 1/2` the trigger
condition of the claim holds (`maxRatio > 0`, `min > 0`, `max/min > maxRatio`),
but the result is `(8, 20/3, 4)`: its max/min ratio is `2`, not `1/2`, and the
component ordering is reversed rather than preserved. -/
theorem conditionInertia_counterexample :
    (0 : ℝ) < 1 / 2 ∧ 0 < FVec3.cmin ⟨1, 2, 4⟩ ∧
    FVec3.cmax ⟨1, 2, 4⟩ / FVec3.cmin ⟨1, 2, 4⟩ > 1 / 2 ∧
    ConditionInertia ⟨1, 2, 4⟩ (1 / 2) = ⟨8, 20 / 3, 4⟩ ∧
    (ConditionInertia ⟨1, 2, 4⟩ (1 / 2)).cmax / (ConditionInertia ⟨1, 2, 4⟩ (1 / 2)).cmin ≠ 1 / 2 ∧
    ¬((ConditionInertia ⟨1, 2, 4⟩ (1 / 2)).x ≤ (ConditionInertia ⟨1, 2, 4⟩ (1 / 2)).y) := by
  have hC : ConditionInertia ⟨1, 2, 4⟩ (1 / 2) = ⟨8, 20 / 3, 4⟩ := by
    norm_num [ConditionInertia, FVec3.cmin, FVec3.cmax, lerp, min_def, max_def]
  refine ⟨by norm_num, by norm_num [FVec3.cmin, min_def], by
    norm_num [FVec3.cmin, FVec3.cmax, min_def, max_def], hC, ?_, ?_⟩ <;>
    rw [hC] <;> norm_num [FVec3.cmin, FVec3.cmax, min_def, max_def]

/-- Under `MaxRatio ≥ 1` and a positive minimum, `ConditionInertia` keeps the
minimum positive and bounds the max/min ratio by `MaxRatio`. -/
theorem conditionInertia_bounded (I : FVec3) (r : ℝ) (h1 : 1 ≤ r) (hm : 0 < I.cmin) :
    0 < (ConditionInertia I r).cmin ∧
      (ConditionInertia I r).cmax / (ConditionInertia I r).cmin ≤ r := by
  have h0 : (0 : ℝ) < r := lt_of_lt_of_le one_pos h1
  by_cases hratio : I.cmax / I.cmin > r
  · obtain ⟨hcmin, -, hr, -, -⟩ := conditionInertia_trigger I r h1 hm hratio
    have hM : 0 < I.cmax := lt_of_lt_of_le hm (FVec3.cmin_le_cmax I)
    refine ⟨?_, le_of_eq hr⟩
    rw [hcmin]
    exact div_pos hM h0
  · rw [conditionInertia_of_not_trigger I r fun h => hratio h.2.2]
    exact ⟨hm, not_lt.1 hratio⟩

/-- `ConditionParentMass` with positive inputs: the result is positive and the
parent/child mass ratio is at least `MinRatio`. -/
theorem conditionParentMass_spec (Mp Mc minR : ℝ) (hr : 0 < minR) (hp : 0 < Mp)
    (hc : 0 < Mc) :
    0 < ConditionParentMass Mp Mc minR ∧ minR ≤ ConditionParentMass Mp Mc minR / Mc := by
  unfold ConditionParentMass
  rw [if_pos ⟨hr, hp, hc⟩]
  split_ifs with hlt
  · have heq : Mp * (minR / (Mp / Mc)) = minR * Mc := by
      field_simp
    rw [heq, mul_div_assoc, div_self hc.ne', mul_one]
    exact ⟨mul_pos hr hc, le_refl minR⟩
  · exact ⟨hp, not_lt.1 hlt⟩

/-- `ConditionParentInertia` with positive inputs: the result is a positive
uniform scaling of the parent inertia, and the parent/child max-inertia ratio is
at least `MinRatio`. -/
theorem conditionParentInertia_spec (Ip Ic : FVec3) (minR : ℝ) (hr : 0 < minR)
    (hp : 0 < Ip.cmax) (hc : 0 < Ic.cmax) :
    ∃ k : ℝ, 0 < k ∧ ConditionParentInertia Ip Ic minR = k • Ip ∧
      minR ≤ (ConditionParentInertia Ip Ic minR).cmax / Ic.cmax := by
  unfold ConditionParentInertia
  rw [if_pos hr, if_pos ⟨hp, hc⟩]
  split_ifs with hlt
  · refine ⟨minR / (Ip.cmax / Ic.cmax), div_pos hr (div_pos hp hc), rfl, ?_⟩
    rw [FVec3.cmax_smul _ _ (div_pos hr (div_pos hp hc)).le]
    have heq : minR / (Ip.cmax / Ic.cmax) * Ip.cmax / Ic.cmax = minR := by
      field_simp
    rw [heq]
  · exact ⟨1, one_pos, by simp [FVec3.smul_def], not_lt.1 hlt⟩

end FPBDJointUtilities

namespace FVec3

theorem cmin_pos (v : FVec3) (hx : 0 < v.x) (hy : 0 < v.y) (hz : 0 < v.z) : 0 < v.cmin :=
  lt_min hx (lt_min hy hz)

theorem recip_recip (v : FVec3) : v.recip.recip = v := by
  simp [recip, one_div_one_div]

theorem recip_pos (v : FVec3) (hx : 0 < v.x) (hy : 0 < v.y) (hz : 0 < v.z) :
    0 < v.recip.x ∧ 0 < v.recip.y ∧ 0 < v.recip.z :=
  ⟨one_div_pos.2 hx, one_div_pos.2 hy, one_div_pos.2 hz⟩

end FVec3

namespace FPBDJointUtilities

/-- C8 (amended): after `ConditionInverseMassAndInertia`, with `minRatio > 0`,
`maxRatio ≥ 1` and positive inverse-inertia components: each body with positive
inverse mass has direct-inertia max/min ratio at most `maxRatio`; when both
bodies are dynamic the parent/child direct mass ratio and the parent/child
max-inertia ratio are each at least `minRatio`; and
`ConditionParentMass 1 100 (1/2) = 50`, making the mass ratio exactly `1/2`.
The original claim, which required only `maxRatio > 0`, fails for
`0 < maxRatio < 1` (see the counterexample). -/
theorem conditionInverseMassAndInertia_invariants
    (InvMParent InvMChild : ℝ) (InvIParent InvIChild : FVec3) (MinRatio MaxRatio : ℝ)
    (hmin : 0 < MinRatio) (hmax : 1 ≤ MaxRatio)
    (hpx : 0 < InvIParent.x) (hpy : 0 < InvIParent.y) (hpz : 0 < InvIParent.z)
    (hcx : 0 < InvIChild.x) (hcy : 0 < InvIChild.y) (hcz : 0 < InvIChild.z) :
    (0 < InvMParent →
      (ConditionInverseMassAndInertia InvMParent InvMChild InvIParent InvIChild
          MinRatio MaxRatio).InvIParent.recip.cmax /
        (ConditionInverseMassAndInertia InvMParent InvMChild InvIParent InvIChild
          MinRatio MaxRatio).InvIParent.recip.cmin ≤ MaxRatio) ∧
    (0 < InvMChild →
      (ConditionInverseMassAndInertia InvMParent InvMChild InvIParent InvIChild
          MinRatio MaxRatio).InvIChild.recip.cmax /
        (ConditionInverseMassAndInertia InvMParent InvMChild InvIParent InvIChild
          MinRatio MaxRatio).InvIChild.recip.cmin ≤ MaxRatio) ∧
    (0 < InvMParent → 0 < InvMChild →
      MinRatio ≤ (1 / (ConditionInverseMassAndInertia InvMParent InvMChild InvIParent
          InvIChild MinRatio MaxRatio).InvMParent) /
        (1 / (ConditionInverseMassAndInertia InvMParent InvMChild InvIParent InvIChild
          MinRatio MaxRatio).InvMChild) ∧
      MinRatio ≤ (ConditionInverseMassAndInertia InvMParent InvMChild InvIParent InvIChild
          MinRatio MaxRatio).InvIParent.recip.cmax /
        (ConditionInverseMassAndInertia InvMParent InvMChild InvIParent InvIChild
          MinRatio MaxRatio).InvIChild.recip.cmax) ∧
    ConditionParentMass 1 100 (1 / 2) = 50 := by
  obtain ⟨hPr1, hPr2, hPr3⟩ := InvIParent.recip_pos hpx hpy hpz
  obtain ⟨hCr1, hCr2, hCr3⟩ := InvIChild.recip_pos hcx hcy hcz
  obtain ⟨hPminpos, hPratio⟩ := conditionInertia_bounded InvIParent.recip MaxRatio hmax
    (FVec3.cmin_pos _ hPr1 hPr2 hPr3)
  obtain ⟨hCminpos, hCratio⟩ := conditionInertia_bounded InvIChild.recip MaxRatio hmax
    (FVec3.cmin_pos _ hCr1 hCr2 hCr3)
  have hPmax : 0 < (ConditionInertia InvIParent.recip MaxRatio).cmax :=
    lt_of_lt_of_le hPminpos (FVec3.cmin_le_cmax _)
  have hCmax : 0 < (ConditionInertia InvIChild.recip MaxRatio).cmax :=
    lt_of_lt_of_le hCminpos (FVec3.cmin_le_cmax _)
  have hCPM : ConditionParentMass 1 100 (1 / 2) = 50 := by
    norm_num [ConditionParentMass]
  by_cases hp : InvMParent > 0 <;> by_cases hc : InvMChild > 0
  · obtain ⟨k, hk, hCPIeq, hCPIratio⟩ := conditionParentInertia_spec
      (ConditionInertia InvIParent.recip MaxRatio) (ConditionInertia InvIChild.recip MaxRatio)
      MinRatio hmin hPmax hCmax
    obtain ⟨hM2pos, hM2ratio⟩ := conditionParentMass_spec (1 / InvMParent) (1 / InvMChild)
      MinRatio hmin (one_div_pos.2 hp) (one_div_pos.2 hc)
    simp only [ConditionInverseMassAndInertia, hp, hc, and_self, if_true]
    refine ⟨fun _ => ?_, fun _ => ?_, fun _ _ => ⟨?_, ?_⟩, hCPM⟩
    · rw [FVec3.recip_recip, hCPIeq, FVec3.cmax_smul _ _ hk.le, FVec3.cmin_smul _ _ hk.le,
        mul_div_mul_left _ _ hk.ne']
      exact hPratio
    · rw [FVec3.recip_recip]
      exact hCratio
    · rw [one_div_one_div, one_div_one_div]
      exact hM2ratio
    · rw [FVec3.recip_recip, FVec3.recip_recip]
      exact hCPIratio
  · simp only [ConditionInverseMassAndInertia, hp, hc, and_true, true_and, and_false,
      false_and, if_true, if_false]
    exact ⟨fun _ => by rw [FVec3.recip_recip]; exact hPratio, fun h => h.elim,
      fun _ h => h.elim, hCPM⟩
  · simp only [ConditionInverseMassAndInertia, hp, hc, and_true, true_and, and_false,
      false_and, if_true, if_false]
    exact ⟨fun h => h.elim, fun _ => by rw [FVec3.recip_recip]; exact hCratio,
      fun h => h.elim, hCPM⟩
  · exact ⟨fun h => absurd h hp, fun h => absurd h hc, fun h => absurd h hp, hCPM⟩

/-- C8 witness: the amended theorem evaluated at unit inverse masses, inertia
`(1, 1/2, 1/4)` on both bodies, `minRatio = 1/2`, `maxRatio = 2`. -/
theorem conditionInverseMassAndInertia_invariants_witness :
    (ConditionInverseMassAndInertia 1 1 ⟨1, 1 / 2, 1 / 4⟩ ⟨1, 1 / 2, 1 / 4⟩
        (1 / 2) 2).InvIChild.recip.cmax /
      (ConditionInverseMassAndInertia 1 1 ⟨1, 1 / 2, 1 / 4⟩ ⟨1, 1 / 2, 1 / 4⟩
        (1 / 2) 2).InvIChild.recip.cmin ≤ 2 ∧
    ConditionParentMass 1 100 (1 / 2) = 50 := by
  obtain ⟨-, h2, -, h4⟩ := conditionInverseMassAndInertia_invariants 1 1
    ⟨1, 1 / 2, 1 / 4⟩ ⟨1, 1 / 2, 1 / 4⟩ (1 / 2) 2 (by norm_num) (by norm_num)
    (by norm_num) (by norm_num) (by norm_num) (by norm_num) (by norm_num) (by norm_num)
  exact ⟨h2 one_pos, h4⟩

/-- C8 counterexample: with `minRatio = maxRatio = 1/2` (both positive, as the
claim requires), unit inverse masses and inverse inertia `(1, 1/2, 1/4)` on
both bodies, the returned parent direct inertia is `(8, 20/3, 4)`, whose
max/min ratio `2` exceeds `maxRatio = 1/2`. -/
theorem conditionInverseMassAndInertia_counterexample :
    (0 : ℝ) < 1 / 2 ∧
    ConditionInverseMassAndInertia 1 1 ⟨1, 1 / 2, 1 / 4⟩ ⟨1, 1 / 2, 1 / 4⟩ (1 / 2) (1 / 2) =
      { InvMParent := 1, InvMChild := 1, InvIParent := ⟨1 / 8, 3 / 20, 1 / 4⟩,
        InvIChild := ⟨1 / 8, 3 / 20, 1 / 4⟩ } ∧
    ¬((FVec3.recip ⟨1 / 8, 3 / 20, 1 / 4⟩).cmax / (FVec3.recip ⟨1 / 8, 3 / 20, 1 / 4⟩).cmin
        ≤ 1 / 2) := by
  refine ⟨by norm_num, ?_, by norm_num [FVec3.recip, FVec3.cmin, FVec3.cmax, min_def, max_def]⟩
  norm_num [ConditionInverseMassAndInertia, ConditionInertia, ConditionParentMass,
    ConditionParentInertia, FVec3.recip, FVec3.cmin, FVec3.cmax, lerp, min_def, max_def]

/-- C10: `ConditionInverseMassAndInertia` never modifies the child's scalar
inverse mass when it is positive (in exact arithmetic), and a body with
non-positive inverse mass has both its inverse mass and its inverse inertia
left unchanged. -/
theorem conditionInverseMassAndInertia_frame
    (InvMParent InvMChild : ℝ) (InvIParent InvIChild : FVec3) (MinRatio MaxRatio : ℝ) :
    (0 < InvMChild →
      (ConditionInverseMassAndInertia InvMParent InvMChild InvIParent InvIChild
        MinRatio MaxRatio).InvMChild = InvMChild) ∧
    (InvMParent ≤ 0 →
      (ConditionInverseMassAndInertia InvMParent InvMChild InvIParent InvIChild
          MinRatio MaxRatio).InvMParent = InvMParent ∧
        (ConditionInverseMassAndInertia InvMParent InvMChild InvIParent InvIChild
          MinRatio MaxRatio).InvIParent = InvIParent) ∧
    (InvMChild ≤ 0 →
      (ConditionInverseMassAndInertia InvMParent InvMChild InvIParent InvIChild
          MinRatio MaxRatio).InvMChild = InvMChild ∧
        (ConditionInverseMassAndInertia InvMParent InvMChild InvIParent InvIChild
          MinRatio MaxRatio).InvIChild = InvIChild) := by
  refine ⟨fun h => ?_, fun h => ?_, fun h => ?_⟩
  · simp [ConditionInverseMassAndInertia, h]
  · simp [ConditionInverseMassAndInertia, not_lt.2 h]
  · simp [ConditionInverseMassAndInertia, not_lt.2 h]

/-- C10 witness: a static parent (inverse mass `0`) and a dynamic child with
inverse mass `2` come back with the child inverse mass exactly `2` and the
parent state untouched. -/
theorem conditionInverseMassAndInertia_frame_witness :
    (ConditionInverseMassAndInertia 0 2 ⟨1, 1, 1⟩ ⟨1, 1, 1⟩ 1 1).InvMChild = 2 ∧
    (ConditionInverseMassAndInertia 0 2 ⟨1, 1, 1⟩ ⟨1, 1, 1⟩ 1 1).InvMParent = 0 ∧
    (ConditionInverseMassAndInertia 0 2 ⟨1, 1, 1⟩ ⟨1, 1, 1⟩ 1 1).InvIParent = ⟨1, 1, 1⟩ := by
  obtain ⟨h1, h2, -⟩ := conditionInverseMassAndInertia_frame 0 2 ⟨1, 1, 1⟩ ⟨1, 1, 1⟩ 1 1
  exact ⟨h1 (by norm_num), (h2 le_rfl).1, (h2 le_rfl).2⟩

end FPBDJointUtilities

namespace FVec3

theorem size_nonneg (v : FVec3) : 0 ≤ v.size := Real.sqrt_nonneg _

theorem size_smul (c : ℝ) (v : FVec3) : (c • v).size = |c| * v.size := by
  have h : dot (c • v) (c • v) = c ^ 2 * dot v v := by
    simp only [smul_def, dot]; ring
  rw [size, h, Real.sqrt_mul (sq_nonneg c), Real.sqrt_sq_eq_abs, size]

theorem size_zero : (0 : FVec3).size = 0 := by
  simp [size, dot, zero_def]

theorem size_single (a : ℝ) (ha : 0 ≤ a) : size ⟨a, 0, 0⟩ = a := by
  show Real.sqrt (a * a + 0 * 0 + 0 * 0) = a
  rw [show a * a + 0 * 0 + 0 * 0 = a ^ 2 by ring, Real.sqrt_sq ha]

end FVec3

namespace FPBDJointUtilities

/-- `FPBDJointUtilities::GetSphereLimitedPositionError`. -/
noncomputable def GetSphereLimitedPositionError (CX : FVec3) (Radius : ℝ) : FVec3 :=
  let CXLen := CX.size
  if CXLen < Radius then 0
  else if CXLen > SMALL_NUMBER then
    let Dir := (1 / CXLen) • CX
    CX - Radius • Dir
  else CX

/-- C5 (amended): `GetSphereLimitedPositionError` returns zero for `|CX| < limit`
and for zero `CX`; and for `|CX| = limit + d` with `d > 0` and
`|CX| > SMALL_NUMBER` the result has magnitude exactly `d` and is a nonnegative
multiple of `CX`. The original claim omitted the `SMALL_NUMBER` guard and fails
for tiny violating inputs (see the counterexample). -/
theorem getSphereLimitedPositionError_spec (CX : FVec3) (Limit : ℝ) :
    (CX.size < Limit → GetSphereLimitedPositionError CX Limit = 0) ∧
    (∀ d : ℝ, 0 < d → CX.size = Limit + d → SMALL_NUMBER < CX.size →
      (GetSphereLimitedPositionError CX Limit).size = d ∧
      ∃ t : ℝ, 0 ≤ t ∧ GetSphereLimitedPositionError CX Limit = t • CX) ∧
    (CX = 0 → GetSphereLimitedPositionError CX Limit = 0) := by
  refine ⟨fun h => ?_, fun d hd hlen hsmall => ?_, fun h => ?_⟩
  · simp only [GetSphereLimitedPositionError]
    rw [if_pos h]
  · have hpos : 0 < CX.size := lt_trans (by norm_num [SMALL_NUMBER]) hsmall
    have hnotlt : ¬(CX.size < Limit) := not_lt.2 (by rw [hlen]; linarith)
    have hres : GetSphereLimitedPositionError CX Limit = (1 - Limit / CX.size) • CX := by
      simp only [GetSphereLimitedPositionError]
      rw [if_neg hnotlt, if_pos hsmall]
      simp only [FVec3.sub_def, FVec3.smul_def, FVec3.mk.injEq]
      refine ⟨by ring, by ring, by ring⟩
    have h1 : 1 - Limit / CX.size = d / CX.size := by
      field_simp
      linarith
    constructor
    · rw [hres, FVec3.size_smul, h1, abs_of_nonneg (div_nonneg hd.le hpos.le),
        div_mul_cancel₀ _ hpos.ne']
    · exact ⟨1 - Limit / CX.size, by rw [h1]; positivity, hres⟩
  · subst h
    simp only [GetSphereLimitedPositionError]
    split_ifs with h1 h2
    · rfl
    · rw [FVec3.size_zero] at h2
      norm_num [SMALL_NUMBER] at h2
    · rfl

/-- C5 witness: `CX = (5,0,0)` with `limit = 3` yields a violation of magnitude
exactly `2`; `CX = (1,0,0)` inside `limit = 2` yields zero; zero `CX` yields
zero. -/
theorem getSphereLimitedPositionError_spec_witness :
    (GetSphereLimitedPositionError ⟨5, 0, 0⟩ 3).size = 2 ∧
    GetSphereLimitedPositionError ⟨1, 0, 0⟩ 2 = 0 ∧
    GetSphereLimitedPositionError 0 3 = 0 := by
  have h5 : FVec3.size ⟨5, 0, 0⟩ = 5 := FVec3.size_single 5 (by norm_num)
  have h1 : FVec3.size ⟨1, 0, 0⟩ = 1 := FVec3.size_single 1 (by norm_num)
  refine ⟨((getSphereLimitedPositionError_spec ⟨5, 0, 0⟩ 3).2.1 2 (by norm_num)
      (by rw [h5]; norm_num) (by rw [h5]; norm_num [SMALL_NUMBER])).1,
    (getSphereLimitedPositionError_spec ⟨1, 0, 0⟩ 2).1 (by rw [h1]; norm_num),
    (getSphereLimitedPositionError_spec 0 3).2.2 rfl⟩

/-- C5 counterexample: `CX = (10⁻⁸, 0, 0)` with `limit = d = 1/(2·10⁸)`
satisfies `|CX| = limit + d` and `d > 0`, but `|CX|` does not exceed the code's
`SMALL_NUMBER` guard, so the input is returned unchanged and the result's
magnitude is `10⁻⁸ ≠ d`. -/
theorem getSphereLimitedPositionError_counterexample :
    FVec3.size ⟨1 / 10 ^ 8, 0, 0⟩ = 1 / (2 * 10 ^ 8) + 1 / (2 * 10 ^ 8) ∧
    (0 : ℝ) < 1 / (2 * 10 ^ 8) ∧
    GetSphereLimitedPositionError ⟨1 / 10 ^ 8, 0, 0⟩ (1 / (2 * 10 ^ 8)) = ⟨1 / 10 ^ 8, 0, 0⟩ ∧
    FVec3.size (GetSphereLimitedPositionError ⟨1 / 10 ^ 8, 0, 0⟩ (1 / (2 * 10 ^ 8))) ≠
      1 / (2 * 10 ^ 8) := by
  have hs : FVec3.size ⟨1 / 10 ^ 8, 0, 0⟩ = 1 / 10 ^ 8 :=
    FVec3.size_single (1 / 10 ^ 8) (by norm_num)
  have hres : GetSphereLimitedPositionError ⟨1 / 10 ^ 8, 0, 0⟩ (1 / (2 * 10 ^ 8)) =
      ⟨1 / 10 ^ 8, 0, 0⟩ := by
    simp only [GetSphereLimitedPositionError]
    rw [if_neg (by rw [hs]; norm_num), if_neg (by rw [hs]; norm_num [SMALL_NUMBER])]
  refine ⟨by rw [hs]; norm_num, by norm_num, hres, ?_⟩
  rw [hres, hs]
  norm_num

end FPBDJointUtilities

/-- Modelled from the spec: `FRotation3` vector rotation (`operator*`, UE
`FQuat::RotateVector`), defined in engine headers outside the sources, is
quaternion conjugation of the pure quaternion `(0, v)` by `q` (for unit `q`):
`q · (0,v) · q*`, returning the imaginary part. -/
noncomputable def rotateVector (q : Quaternion ℝ) (v : FVec3) : FVec3 :=
  let p : Quaternion ℝ := ⟨0, v.x, v.y, v.z⟩
  let r := q * p * star q
  ⟨r.imI, r.imJ, r.imK⟩

/-- Modelled from the spec: `FQuat::GetNormalized` / `FQuat::Normalize` with the
default tolerance `SMALL_NUMBER`, defined in engine headers outside the sources:
the quaternion scaled to unit length when its squared length reaches the
tolerance, the identity quaternion otherwise. -/
noncomputable def GetNormalized (q : Quaternion ℝ) : Quaternion ℝ :=
  if SMALL_NUMBER ≤ Quaternion.normSq q then (Real.sqrt (Quaternion.normSq q))⁻¹ • q else 1

/-- Modelled from the spec: `FQuat::GetAngle`, defined in engine headers outside
the sources, extracts the rotation angle `2·acos(W)` of a (unit) quaternion. -/
noncomputable def GetAngle (q : Quaternion ℝ) : ℝ := 2 * Real.arccos q.re

/-- Modelled from the spec: `FQuat::Inverse`, defined in engine headers outside
the sources, is the conjugate (the true inverse for unit quaternions). -/
def Inverse (q : Quaternion ℝ) : Quaternion ℝ := star q

/-- Modelled from the spec: `FRotation3::ToSwingTwistX` (UE
`FQuat::ToSwingTwist` with the X twist axis), defined in engine headers outside
the sources. The twist is the normalized projection `(W, X, 0, 0)` of the
quaternion onto the twist axis (identity on the 180°-singular zero projection);
the swing is `q * twist.Inverse()`, so under the kernel's convention the twist
is applied first: `q = swing * twist`. Returns `(swing, twist)`. -/
noncomputable def ToSwingTwistX (q : Quaternion ℝ) : Quaternion ℝ × Quaternion ℝ :=
  let Twist0 : Quaternion ℝ := ⟨q.re, q.imI, 0, 0⟩
  let Twist := if Quaternion.normSq Twist0 = 0 then 1 else GetNormalized Twist0
  let Swing := q * Inverse Twist
  (Swing, Twist)

/-- Modelled from the spec: `FMath::Atan2`, the standard two-argument
arctangent. -/
noncomputable def atan2 (y x : ℝ) : ℝ :=
  if 0 < x then Real.arctan (y / x)
  else if x < 0 then
    if 0 ≤ y then Real.arctan (y / x) + Real.pi else Real.arctan (y / x) - Real.pi
  else if 0 < y then Real.pi / 2
  else if y < 0 then -(Real.pi / 2)
  else 0

namespace FPBDJointUtilities

/-- `FPBDJointUtilities::DecomposeSwingTwistLocal`: forms `R01 = R0⁻¹ · R1`
(conjugate inverse) and splits it into swing and twist. Returns
`(R01Swing, R01Twist)`. -/
noncomputable def DecomposeSwingTwistLocal (R0 R1 : Quaternion ℝ) :
    Quaternion ℝ × Quaternion ℝ :=
  ToSwingTwistX (Inverse R0 * R1)

/-- `FPBDJointUtilities::GetSwingTwistAngles`: returns
`(TwistAngle, Swing1Angle, Swing2Angle)` with the swing angles via the
half-angle identity `4·atan2(component, 1 + W)` on the swing quaternion's Z and
Y components. -/
noncomputable def GetSwingTwistAngles (R0 R1 : Quaternion ℝ) : ℝ × ℝ × ℝ :=
  let st := DecomposeSwingTwistLocal R0 R1
  (GetAngle st.2, 4 * atan2 st.1.imK (1 + st.1.re), 4 * atan2 st.1.imJ (1 + st.1.re))

/-- `FPBDJointUtilities::GetTwistAngle`: normalizes the twist, extracts its
angle, remaps angles above `π` by subtracting `2π`, and negates when the twist
X component is negative. -/
noncomputable def GetTwistAngle (InTwist : Quaternion ℝ) : ℝ :=
  let Twist := GetNormalized InTwist
  let Angle := GetAngle Twist
  let Angle2 := if Angle > Real.pi then Angle - 2 * Real.pi else Angle
  if Twist.imI < 0 then -Angle2 else Angle2

/-- `FPBDJointUtilities::GetTwistAxisAngle`: the axis is the child's twist axis
in world space (`R1 ·` the local X axis, a modelled `FJointConstants::TwistAxis`),
the angle comes from `GetTwistAngle` on the twist of `R0⁻¹·R1`. -/
noncomputable def GetTwistAxisAngle (R0 R1 : Quaternion ℝ) : FVec3 × ℝ :=
  let st := DecomposeSwingTwistLocal R0 R1
  (rotateVector R1 ⟨1, 0, 0⟩, GetTwistAngle st.2)

/-- Recomposition identity for the swing/twist split: for every quaternion,
`swing * twist` gives back the input (the twist factor is unit by construction,
including both degenerate fallbacks to the identity). -/
theorem toSwingTwistX_recompose (q : Quaternion ℝ) :
    (ToSwingTwistX q).1 * (ToSwingTwistX q).2 = q := by
  simp only [ToSwingTwistX]
  by_cases h : Quaternion.normSq (⟨q.re, q.imI, 0, 0⟩ : Quaternion ℝ) = 0
  · rw [if_pos h]
    simp [Inverse]
  · rw [if_neg h]
    unfold GetNormalized
    split_ifs with htol
    · have hpos : 0 < Quaternion.normSq (⟨q.re, q.imI, 0, 0⟩ : Quaternion ℝ) :=
        lt_of_le_of_ne Quaternion.normSq_nonneg (Ne.symm h)
      have hn : Quaternion.normSq
          ((Real.sqrt (Quaternion.normSq (⟨q.re, q.imI, 0, 0⟩ : Quaternion ℝ)))⁻¹ •
            (⟨q.re, q.imI, 0, 0⟩ : Quaternion ℝ)) = 1 := by
        rw [Quaternion.normSq_smul, inv_pow, Real.sq_sqrt hpos.le, inv_mul_cancel₀ hpos.ne']
      rw [Inverse, mul_assoc, Quaternion.star_mul_self, hn]
      simp
    · simp [Inverse]

/-- C3: for unit `R0` (and any `R1`), multiplying the swing and twist factors of
`DecomposeSwingTwistLocal` in the kernel's fixed order — the twist factor on the
right, i.e. the twist rotation applied first — reproduces the relative rotation
`R01 = R0⁻¹ · R1` exactly, with no tolerance needed in exact arithmetic; this
includes the near-180° fallback branches of the decomposition. -/
theorem decomposeSwingTwist_recompose (R0 R1 : Quaternion ℝ)
    (h0 : Quaternion.normSq R0 = 1) :
    (DecomposeSwingTwistLocal R0 R1).1 * (DecomposeSwingTwistLocal R0 R1).2 = R0⁻¹ * R1 := by
  have hinv : R0⁻¹ = star R0 := by
    rw [Quaternion.instInv_inv, h0]
    simp
  simp only [DecomposeSwingTwistLocal]
  rw [toSwingTwistX_recompose, Inverse, hinv]

/-- C3 witness: the identity pair decomposes and recomposes exactly. -/
theorem decomposeSwingTwist_recompose_witness :
    (DecomposeSwingTwistLocal 1 1).1 * (DecomposeSwingTwistLocal 1 1).2 = 1⁻¹ * 1 :=
  decomposeSwingTwist_recompose 1 1 (by simp)

/-- C2 (amended): `GetTwistAngle` always returns a value in the closed interval
`[-π, π]`, and its value is exactly the extracted rotation angle of the
normalized twist, remapped below `π` by subtracting `2π` when above `π`, with
the sign flipped exactly when the normalized twist's X component is negative.
The original claim's half-open interval `(-π, π]` is wrong: `-π` is attained
(see the counterexample). -/
theorem getTwistAngle_spec (q : Quaternion ℝ) :
    GetTwistAngle q ∈ Set.Icc (-Real.pi) Real.pi ∧
    GetTwistAngle q =
      (if (GetNormalized q).imI < 0 then
        -(if GetAngle (GetNormalized q) > Real.pi then GetAngle (GetNormalized q) - 2 * Real.pi
          else GetAngle (GetNormalized q))
       else
        (if GetAngle (GetNormalized q) > Real.pi then GetAngle (GetNormalized q) - 2 * Real.pi
          else GetAngle (GetNormalized q))) := by
  constructor
  · have h1 : 0 ≤ Real.arccos (GetNormalized q).re := Real.arccos_nonneg _
    have h2 : Real.arccos (GetNormalized q).re ≤ Real.pi := Real.arccos_le_pi _
    have hpi : 0 < Real.pi := Real.pi_pos
    simp only [GetTwistAngle, GetAngle, Set.mem_Icc]
    split_ifs <;> constructor <;> linarith
  · rfl

/-- C2 counterexample: the unit twist quaternion `(W,X,Y,Z) = (0,-1,0,0)` — a
180° twist with negative X — yields `GetTwistAngle = -π`, which is outside the
claimed half-open interval `(-π, π]`. -/
theorem getTwistAngle_counterexample :
    GetTwistAngle ⟨0, -1, 0, 0⟩ = -Real.pi ∧
    GetTwistAngle ⟨0, -1, 0, 0⟩ ∉ Set.Ioc (-Real.pi) Real.pi := by
  have hns : Quaternion.normSq (⟨0, -1, 0, 0⟩ : Quaternion ℝ) = 1 := by
    rw [Quaternion.normSq_def']
    norm_num
  have hnorm : GetNormalized ⟨0, -1, 0, 0⟩ = ⟨0, -1, 0, 0⟩ := by
    rw [GetNormalized, if_pos (by rw [hns]; norm_num [SMALL_NUMBER]), hns, Real.sqrt_one,
      inv_one, one_smul]
  have hval : GetTwistAngle ⟨0, -1, 0, 0⟩ = -Real.pi := by
    have hre : (⟨0, -1, 0, 0⟩ : Quaternion ℝ).re = 0 := rfl
    have him : (⟨0, -1, 0, 0⟩ : Quaternion ℝ).imI = -1 := rfl
    have hangle : 2 * (Real.pi / 2) = Real.pi := by ring
    simp only [GetTwistAngle, hnorm, GetAngle, hre, him, Real.arccos_zero, hangle]
    rw [if_neg (lt_irrefl Real.pi), if_pos (by norm_num : (-1 : ℝ) < 0)]
  refine ⟨hval, ?_⟩
  rw [hval]
  simp

/-- Decomposition of the identity rotation: zero projection singularity does not
fire, the twist normalizes to the identity, and the swing is the identity. -/
theorem toSwingTwistX_one : ToSwingTwistX 1 = (1, 1) := by
  have h1 : (⟨(1 : Quaternion ℝ).re, (1 : Quaternion ℝ).imI, 0, 0⟩ : Quaternion ℝ) = 1 := rfl
  have hn1 : Quaternion.normSq (1 : Quaternion ℝ) = 1 := map_one _
  simp only [ToSwingTwistX, h1, hn1]
  rw [if_neg (by norm_num : ¬(1 : ℝ) = 0)]
  simp only [GetNormalized, hn1]
  rw [if_pos (by norm_num [SMALL_NUMBER] : SMALL_NUMBER ≤ (1 : ℝ)), Real.sqrt_one, inv_one,
    one_smul]
  simp [Inverse]

/-- Normalizing the identity quaternion is the identity. -/
theorem getNormalized_one : GetNormalized 1 = 1 := by
  simp only [GetNormalized, map_one]
  rw [if_pos (by norm_num [SMALL_NUMBER] : SMALL_NUMBER ≤ (1 : ℝ)), Real.sqrt_one, inv_one,
    one_smul]

/-- The twist angle of the identity twist is exactly zero. -/
theorem getTwistAngle_one : GetTwistAngle 1 = 0 := by
  simp only [GetTwistAngle, getNormalized_one, GetAngle, Quaternion.one_re, Quaternion.one_imI,
    Real.arccos_one, mul_zero]
  rw [if_neg (not_lt.2 Real.pi_pos.le), if_neg (lt_irrefl 0)]

/-- C9: for every pair of equal unit quaternions, the twist angle and both swing
angles from `GetSwingTwistAngles` are exactly zero, and the angle returned by
`GetTwistAxisAngle` is exactly zero. -/
theorem equalRotations_zero_angles (q : Quaternion ℝ) (hq : Quaternion.normSq q = 1) :
    GetSwingTwistAngles q q = (0, 0, 0) ∧ (GetTwistAxisAngle q q).2 = 0 := by
  have hR01 : Inverse q * q = 1 := by
    rw [Inverse, Quaternion.star_mul_self, hq]
    simp
  have hdec : DecomposeSwingTwistLocal q q = (1, 1) := by
    rw [DecomposeSwingTwistLocal, hR01, toSwingTwistX_one]
  have hga : GetAngle 1 = 0 := by
    simp [GetAngle, Real.arccos_one]
  have hatan : atan2 0 2 = 0 := by
    rw [atan2, if_pos (by norm_num : (0 : ℝ) < 2)]
    norm_num
  constructor
  · simp only [GetSwingTwistAngles, hdec, hga, Quaternion.one_re, Quaternion.one_imJ,
      Quaternion.one_imK]
    rw [show (1 : ℝ) + 1 = 2 by norm_num, hatan]
    norm_num
  · simp only [GetTwistAxisAngle, hdec]
    exact getTwistAngle_one

/-- C9 witness: the identity pair. -/
theorem equalRotations_zero_angles_witness :
    GetSwingTwistAngles 1 1 = (0, 0, 0) ∧ (GetTwistAxisAngle 1 1).2 = 0 :=
  equalRotations_zero_angles 1 (by simp)

end FPBDJointUtilities

namespace FVec3

theorem dot_add_left (a b c : FVec3) : (a + b).dot c = a.dot c + b.dot c := by
  simp only [dot, add_def]
  ring

theorem dot_sub_left (a b c : FVec3) : (a - b).dot c = a.dot c - b.dot c := by
  simp only [dot, sub_def]
  ring

theorem dot_smul_left (r : ℝ) (a b : FVec3) : (r • a).dot b = r * a.dot b := by
  simp only [dot, smul_def]
  ring

theorem dot_zero_left (a : FVec3) : (0 : FVec3).dot a = 0 := by
  simp [dot, zero_def]

end FVec3

/-- Rotating two vectors by the same quaternion scales their dot product by the
square of the quaternion's squared norm (so a unit quaternion preserves it). -/
theorem rotateVector_dot (q : Quaternion ℝ) (u v : FVec3) :
    (rotateVector q u).dot (rotateVector q v) = Quaternion.normSq q ^ 2 * u.dot v := by
  simp only [rotateVector, FVec3.dot, Quaternion.mul_re, Quaternion.mul_imI,
    Quaternion.mul_imJ, Quaternion.mul_imK, Quaternion.star_re, Quaternion.star_imI,
    Quaternion.star_imJ, Quaternion.star_imK, Quaternion.normSq_def']
  ring

namespace FPBDJointUtilities

open EJointMotionType

/-- `FPBDJointUtilities::GetCylinderLimitedPositionError`. -/
noncomputable def GetCylinderLimitedPositionError (InCX Axis : FVec3) (Limit : ℝ)
    (AxisMotion : EJointMotionType) : FVec3 :=
  let CXAxis := (FVec3.dot InCX Axis) • Axis
  let CXPlane := InCX - CXAxis
  let CXPlaneLen := CXPlane.size
  let CXAxis2 := if AxisMotion = Free then 0 else CXAxis
  let CXPlane2 :=
    if CXPlaneLen < Limit then 0
    else if CXPlaneLen > KINDA_SMALL_NUMBER then
      let Dir := (1 / CXPlaneLen) • CXPlane
      CXPlane - Limit • Dir
    else CXPlane
  CXAxis2 + CXPlane2

/-- `FPBDJointUtilities::GetLineLimitedPositionError`. -/
noncomputable def GetLineLimitedPositionError (CX Axis : FVec3) (Limit : ℝ)
    (AxisMotion : EJointMotionType) : FVec3 :=
  let CXDist := FVec3.dot CX Axis
  if AxisMotion = Free ∨ |CXDist| < Limit then CX - CXDist • Axis
  else if CXDist ≥ Limit then CX - Limit • Axis
  else CX + Limit • Axis

/-- Soft-downgraded per-axis motion, mirroring the `Motion` triple built at the
top of `GetLimitedPositionError`: a `Limited` axis is treated as `Free` when the
joint's soft linear limits are enabled. -/
def softDowngradedMotion (JointSettings : FPBDJointSettings) (i : Fin 3) : EJointMotionType :=
  if JointSettings.LinearMotionTypes i = Limited ∧ JointSettings.bSoftLinearLimitsEnabled then
    Free
  else JointSettings.LinearMotionTypes i

/-- `FPBDJointUtilities::GetLimitedPositionError`: exhaustive case selection
over the soft-downgraded motion-type triple (point, sphere, three cylinder
orientations, then per-axis line/square/cube accumulation). -/
noncomputable def GetLimitedPositionError (JointSettings : FPBDJointSettings)
    (R0 : Quaternion ℝ) (InCX : FVec3) : FVec3 :=
  let M0 := softDowngradedMotion JointSettings 0
  let M1 := softDowngradedMotion JointSettings 1
  let M2 := softDowngradedMotion JointSettings 2
  if M0 = Locked ∧ M1 = Locked ∧ M2 = Locked then InCX
  else if M0 = Limited ∧ M1 = Limited ∧ M2 = Limited then
    GetSphereLimitedPositionError InCX JointSettings.LinearLimit
  else if M1 = Limited ∧ M2 = Limited then
    GetCylinderLimitedPositionError InCX (rotateVector R0 ⟨1, 0, 0⟩)
      JointSettings.LinearLimit M0
  else if M0 = Limited ∧ M2 = Limited then
    GetCylinderLimitedPositionError InCX (rotateVector R0 ⟨0, 1, 0⟩)
      JointSettings.LinearLimit M1
  else if M0 = Limited ∧ M1 = Limited then
    GetCylinderLimitedPositionError InCX (rotateVector R0 ⟨0, 0, 1⟩)
      JointSettings.LinearLimit M2
  else
    let CX1 := if M0 ≠ Locked then
        GetLineLimitedPositionError InCX (rotateVector R0 ⟨1, 0, 0⟩)
          JointSettings.LinearLimit M0
      else InCX
    let CX2 := if M1 ≠ Locked then
        GetLineLimitedPositionError CX1 (rotateVector R0 ⟨0, 1, 0⟩)
          JointSettings.LinearLimit M1
      else CX1
    if M2 ≠ Locked then
      GetLineLimitedPositionError CX2 (rotateVector R0 ⟨0, 0, 1⟩)
        JointSettings.LinearLimit M2
    else CX2

/-- A zero sphere limit transmits the full error (degenerates to locked). -/
theorem getSphereLimitedPositionError_limit_zero (CX : FVec3) :
    GetSphereLimitedPositionError CX 0 = CX := by
  simp only [GetSphereLimitedPositionError]
  split_ifs with h1 h2
  · exact absurd h1 (not_lt.2 CX.size_nonneg)
  · simp [FVec3.sub_def, FVec3.smul_def]
  · rfl

/-- A cylinder about a free unit axis produces no error along that axis. -/
theorem getCylinder_free_dot (CX A : FVec3) (L : ℝ) (hA : A.dot A = 1) :
    (GetCylinderLimitedPositionError CX A L Free).dot A = 0 := by
  have hplane : (CX - (FVec3.dot CX A) • A).dot A = 0 := by
    rw [FVec3.dot_sub_left, FVec3.dot_smul_left, hA, mul_one, sub_self]
  simp only [GetCylinderLimitedPositionError, eq_self_iff_true, if_true]
  split_ifs with h1 h2
  · rw [FVec3.dot_add_left, FVec3.dot_zero_left]
    norm_num
  · rw [FVec3.dot_add_left, FVec3.dot_zero_left, FVec3.dot_sub_left, FVec3.dot_smul_left,
      FVec3.dot_smul_left, hplane]
    ring
  · rw [FVec3.dot_add_left, FVec3.dot_zero_left, hplane]
    norm_num

/-- A line limit along a free unit axis produces no error along that axis. -/
theorem getLine_free_dot (CX A : FVec3) (L : ℝ) (hA : A.dot A = 1) :
    (GetLineLimitedPositionError CX A L Free).dot A = 0 := by
  simp only [GetLineLimitedPositionError]
  rw [if_pos (Or.inl trivial), FVec3.dot_sub_left, FVec3.dot_smul_left, hA, mul_one, sub_self]

/-- A line limit only moves the error along its own axis: the dot product with
any orthogonal direction is preserved, for every motion type. -/
theorem getLine_dot_orthogonal (CX A B : FVec3) (L : ℝ) (m : EJointMotionType)
    (hAB : A.dot B = 0) :
    (GetLineLimitedPositionError CX A L m).dot B = CX.dot B := by
  simp only [GetLineLimitedPositionError]
  split_ifs <;>
    simp [FVec3.dot_sub_left, FVec3.dot_add_left, FVec3.dot_smul_left, hAB]

/-- A conditionally applied line limit along an axis orthogonal to `B` preserves
the dot product with `B`. -/
theorem getLine_step_dot (CX A B : FVec3) (L : ℝ) (m : EJointMotionType) (c : Prop)
    [Decidable c] (hAB : A.dot B = 0) :
    (if c then GetLineLimitedPositionError CX A L m else CX).dot B = CX.dot B := by
  split_ifs with h
  · exact getLine_dot_orthogonal CX A B L m hAB
  · rfl

/-- C6: `GetLimitedPositionError` under a unit frame quaternion: (a) with all
three linear motion types `Locked` the output equals the input exactly; (b)
with all three soft-downgraded motion types `Limited` and a zero limit the
output equals the input exactly; (c) the output has no component along the
world axis of any soft-downgraded-`Free` axis. -/
theorem getLimitedPositionError_spec (js : FPBDJointSettings) (q : Quaternion ℝ) (CX : FVec3)
    (hq : Quaternion.normSq q = 1) :
    ((∀ i, js.LinearMotionTypes i = Locked) → GetLimitedPositionError js q CX = CX) ∧
    ((∀ i, softDowngradedMotion js i = Limited) → js.LinearLimit = 0 →
      GetLimitedPositionError js q CX = CX) ∧
    (softDowngradedMotion js 0 = Free →
      (GetLimitedPositionError js q CX).dot (rotateVector q ⟨1, 0, 0⟩) = 0) ∧
    (softDowngradedMotion js 1 = Free →
      (GetLimitedPositionError js q CX).dot (rotateVector q ⟨0, 1, 0⟩) = 0) ∧
    (softDowngradedMotion js 2 = Free →
      (GetLimitedPositionError js q CX).dot (rotateVector q ⟨0, 0, 1⟩) = 0) := by
  have hq2 : Quaternion.normSq q ^ 2 = 1 := by rw [hq]; norm_num
  have hA00 : (rotateVector q ⟨1, 0, 0⟩).dot (rotateVector q ⟨1, 0, 0⟩) = 1 := by
    rw [rotateVector_dot, hq2]
    norm_num [FVec3.dot]
  have hA11 : (rotateVector q ⟨0, 1, 0⟩).dot (rotateVector q ⟨0, 1, 0⟩) = 1 := by
    rw [rotateVector_dot, hq2]
    norm_num [FVec3.dot]
  have hA22 : (rotateVector q ⟨0, 0, 1⟩).dot (rotateVector q ⟨0, 0, 1⟩) = 1 := by
    rw [rotateVector_dot, hq2]
    norm_num [FVec3.dot]
  have hA10 : (rotateVector q ⟨0, 1, 0⟩).dot (rotateVector q ⟨1, 0, 0⟩) = 0 := by
    rw [rotateVector_dot, hq2]
    norm_num [FVec3.dot]
  have hA20 : (rotateVector q ⟨0, 0, 1⟩).dot (rotateVector q ⟨1, 0, 0⟩) = 0 := by
    rw [rotateVector_dot, hq2]
    norm_num [FVec3.dot]
  have hA21 : (rotateVector q ⟨0, 0, 1⟩).dot (rotateVector q ⟨0, 1, 0⟩) = 0 := by
    rw [rotateVector_dot, hq2]
    norm_num [FVec3.dot]
  have hFL : (Free : EJointMotionType) ≠ Locked := by simp
  refine ⟨fun hall => ?_, fun hall hlim => ?_, fun hfree => ?_, fun hfree => ?_, fun hfree => ?_⟩
  · have hd : ∀ i, softDowngradedMotion js i = Locked := fun i => by
      simp [softDowngradedMotion, hall i]
    simp [GetLimitedPositionError, hd 0, hd 1, hd 2]
  · simp [GetLimitedPositionError, hall 0, hall 1, hall 2, hlim,
      getSphereLimitedPositionError_limit_zero]
  · by_cases h12 : softDowngradedMotion js 1 = Limited ∧ softDowngradedMotion js 2 = Limited
    · have heq : GetLimitedPositionError js q CX =
          GetCylinderLimitedPositionError CX (rotateVector q ⟨1, 0, 0⟩)
            js.LinearLimit Free := by
        simp [GetLimitedPositionError, hfree, h12.1, h12.2]
      rw [heq]
      exact getCylinder_free_dot _ _ _ hA00
    · simp only [GetLimitedPositionError]
      rw [hfree]
      rw [if_neg (by simp : ¬(Free = Locked ∧ softDowngradedMotion js 1 = Locked ∧
            softDowngradedMotion js 2 = Locked)),
        if_neg (by simp : ¬(Free = Limited ∧ softDowngradedMotion js 1 = Limited ∧
            softDowngradedMotion js 2 = Limited)),
        if_neg h12,
        if_neg (by simp : ¬(Free = Limited ∧ softDowngradedMotion js 2 = Limited)),
        if_neg (by simp : ¬(Free = Limited ∧ softDowngradedMotion js 1 = Limited)),
        if_pos hFL]
      rw [getLine_step_dot _ _ _ _ _ _ hA20, getLine_step_dot _ _ _ _ _ _ hA10]
      exact getLine_free_dot _ _ _ hA00
  · by_cases h02 : softDowngradedMotion js 0 = Limited ∧ softDowngradedMotion js 2 = Limited
    · have heq : GetLimitedPositionError js q CX =
          GetCylinderLimitedPositionError CX (rotateVector q ⟨0, 1, 0⟩)
            js.LinearLimit Free := by
        simp [GetLimitedPositionError, hfree, h02.1, h02.2]
      rw [heq]
      exact getCylinder_free_dot _ _ _ hA11
    · simp only [GetLimitedPositionError]
      rw [hfree]
      rw [if_neg (by simp : ¬(softDowngradedMotion js 0 = Locked ∧ Free = Locked ∧
            softDowngradedMotion js 2 = Locked)),
        if_neg (by simp : ¬(softDowngradedMotion js 0 = Limited ∧ Free = Limited ∧
            softDowngradedMotion js 2 = Limited)),
        if_neg (by simp : ¬(Free = Limited ∧ softDowngradedMotion js 2 = Limited)),
        if_neg h02,
        if_neg (by simp : ¬(softDowngradedMotion js 0 = Limited ∧ Free = Limited)),
        if_pos hFL]
      rw [getLine_step_dot _ _ _ _ _ _ hA21]
      exact getLine_free_dot _ _ _ hA11
  · by_cases h01 : softDowngradedMotion js 0 = Limited ∧ softDowngradedMotion js 1 = Limited
    · have heq : GetLimitedPositionError js q CX =
          GetCylinderLimitedPositionError CX (rotateVector q ⟨0, 0, 1⟩)
            js.LinearLimit Free := by
        simp [GetLimitedPositionError, hfree, h01.1, h01.2]
      rw [heq]
      exact getCylinder_free_dot _ _ _ hA22
    · simp only [GetLimitedPositionError]
      rw [hfree]
      rw [if_neg (by simp : ¬(softDowngradedMotion js 0 = Locked ∧
            softDowngradedMotion js 1 = Locked ∧ Free = Locked)),
        if_neg (by simp : ¬(softDowngradedMotion js 0 = Limited ∧
            softDowngradedMotion js 1 = Limited ∧ Free = Limited)),
        if_neg (by simp : ¬(softDowngradedMotion js 1 = Limited ∧ Free = Limited)),
        if_neg (by simp : ¬(softDowngradedMotion js 0 = Limited ∧ Free = Limited)),
        if_neg h01,
        if_pos hFL]
      exact getLine_free_dot _ _ _ hA22

/-- C6 witness: an all-locked joint passes the error through unchanged, and a
fully free joint transmits nothing along the world X axis, at the identity
frame. -/
theorem getLimitedPositionError_spec_witness :
    GetLimitedPositionError {} 1 ⟨1, 2, 3⟩ = ⟨1, 2, 3⟩ ∧
    (GetLimitedPositionError { LinearMotionTypes := fun _ => Free } 1 ⟨1, 2, 3⟩).dot
      (rotateVector 1 ⟨1, 0, 0⟩) = 0 := by
  constructor
  · exact (getLimitedPositionError_spec {} 1 ⟨1, 2, 3⟩ (by simp)).1 fun i => rfl
  · exact (getLimitedPositionError_spec { LinearMotionTypes := fun _ => Free } 1
      ⟨1, 2, 3⟩ (by simp)).2.2.1 (by simp [softDowngradedMotion])

end FPBDJointUtilities

end Chaos
